import Mathlib

/-
  Verification of the Avaliador_MIT evaluation-support pipeline.

  Shallow embedding of:
  - src/avaliador/evaluators/mit041.py   (MIT041Evaluator.evaluate, _parse_response)
  - src/avaliador/cache/manager.py       (CacheManager.get / save)
  - src/avaliador/ingestors/image_filter.py (ImageFilter.analyze)
  - src/avaliador/knowledge_base/references.py (ReferenceManager)

  Python strings are modelled as Lean String (code-point lists), Python ints
  as Int/Nat, Python floats as exact rationals (the claims checked here never
  depend on binary floating-point rounding), Python dicts produced by
  json.loads as insertion-ordered association lists, and Python exceptions as
  an Except layer.
-/

set_option maxRecDepth 8192

namespace Avaliador

/-- Python len of a string, counting code points. -/
def pyLen (s : String) : Nat := s.data.length

/-- Python slice s[:n] by code points. -/
def pyTake (s : String) (n : Nat) : String := String.mk (s.data.take n)

/-- Python slice s[n:] by code points. -/
def pyDrop (s : String) (n : Nat) : String := String.mk (s.data.drop n)

/-- Python slice s[:-n] for 0 < n (drops the last n code points). -/
def pyDropLast (s : String) (n : Nat) : String :=
  String.mk (s.data.take (s.data.length - n))

/-- Python str.startswith. -/
def pyStartsWith (s pat : String) : Bool := pat.data.isPrefixOf s.data

/-- Python str.endswith. -/
def pyEndsWith (s pat : String) : Bool := pat.data.isSuffixOf s.data

/-- Python str.isspace for the ASCII whitespace characters str.strip removes. -/
def pyIsSpace (c : Char) : Bool :=
  c = ' ' || c = '\t' || c = '\n' || c = '\r' || c = '\x0b' || c = '\x0c'

/-- Python str.strip() on a code-point list. -/
def pyStripList (cs : List Char) : List Char :=
  ((cs.dropWhile pyIsSpace).reverse.dropWhile pyIsSpace).reverse

/-- Python str.strip(). -/
def pyStrip (s : String) : String := String.mk (pyStripList s.data)

/-- Python str.strip(chars) with an explicit character set. -/
def pyStripChars (set : List Char) (s : String) : String :=
  String.mk
    (((s.data.dropWhile (fun c => set.contains c)).reverse.dropWhile
        (fun c => set.contains c)).reverse)

/-- Python str.split(sep) for a one-character separator, accumulator form. -/
def pySplitAux (sep : Char) : List Char → List Char → List String
  | [], acc => [String.mk acc.reverse]
  | c :: cs, acc =>
    if c = sep then String.mk acc.reverse :: pySplitAux sep cs []
    else pySplitAux sep cs (c :: acc)

/-- Python str.split(sep) for a one-character separator. -/
def pySplit (s : String) (sep : Char) : List String := pySplitAux sep s.data []

/-- Python membership test for a single character in a string. -/
def pyContainsChar (s : String) (c : Char) : Bool := s.data.contains c

/-- Python sep.join(parts). -/
def pyJoin (sep : String) : List String → String
  | [] => ""
  | [x] => x
  | x :: y :: xs => x ++ sep ++ pyJoin sep (y :: xs)

/-- Left brace character, kept out of string literals. -/
def lbrace : Char := Char.ofNat 123

/-- Right brace character, kept out of string literals. -/
def rbrace : Char := Char.ofNat 125

/-- Single quote character. -/
def squote : Char := Char.ofNat 39

/-- JSON numbers as produced by Python json.loads: int or float. Floats are
modelled as exact rationals. -/
inductive JNum where
  | int (n : Int)
  | float (q : ℚ)
deriving DecidableEq

/-- JSON values as produced by Python json.loads. Objects are Python dicts,
modelled as insertion-ordered association lists with unique keys. -/
inductive Json where
  | null
  | bool (b : Bool)
  | num (v : JNum)
  | str (s : String)
  | arr (elems : List Json)
  | obj (fields : List (String × Json))

/-- Python dict assignment d[k] = v: replace in place if the key exists,
append otherwise. -/
def dictSet (kvs : List (String × Json)) (k : String) (v : Json) :
    List (String × Json) :=
  if kvs.any (fun p => p.1 == k) then
    kvs.map (fun p => if p.1 == k then (k, v) else p)
  else kvs ++ [(k, v)]

/-- Python dict lookup d.get(k) returning None on absence. -/
def dictGet (kvs : List (String × Json)) (k : String) : Option Json :=
  (kvs.find? (fun p => p.1 == k)).map (fun p => p.2)

/-- JSON insignificant whitespace. -/
def isJsonWs (c : Char) : Bool := c = ' ' || c = '\t' || c = '\n' || c = '\r'

/-- Drop leading JSON whitespace. -/
def skipWs (cs : List Char) : List Char := cs.dropWhile isJsonWs

/-- Hexadecimal digit value. -/
def hexVal (c : Char) : Option Nat :=
  if '0' ≤ c ∧ c ≤ '9' then some (c.toNat - '0'.toNat)
  else if 'a' ≤ c ∧ c ≤ 'f' then some (c.toNat - 'a'.toNat + 10)
  else if 'A' ≤ c ∧ c ≤ 'F' then some (c.toNat - 'A'.toNat + 10)
  else none

/-- JSON string body scanner: consumes characters after the opening quote up
to the closing quote, decoding the standard escapes. -/
def parseJStringAux : List Char → List Char → Except String (String × List Char)
  | [], _ => .error "Unterminated string"
  | '"' :: rest, acc => .ok (String.mk acc.reverse, rest)
  | '\\' :: '"' :: rest, acc => parseJStringAux rest ('"' :: acc)
  | '\\' :: '\\' :: rest, acc => parseJStringAux rest ('\\' :: acc)
  | '\\' :: '/' :: rest, acc => parseJStringAux rest ('/' :: acc)
  | '\\' :: 'b' :: rest, acc => parseJStringAux rest ('\x08' :: acc)
  | '\\' :: 'f' :: rest, acc => parseJStringAux rest ('\x0c' :: acc)
  | '\\' :: 'n' :: rest, acc => parseJStringAux rest ('\n' :: acc)
  | '\\' :: 'r' :: rest, acc => parseJStringAux rest ('\r' :: acc)
  | '\\' :: 't' :: rest, acc => parseJStringAux rest ('\t' :: acc)
  | '\\' :: 'u' :: h1 :: h2 :: h3 :: h4 :: rest, acc =>
    match hexVal h1, hexVal h2, hexVal h3, hexVal h4 with
    | some a, some b, some c, some d =>
      parseJStringAux rest (Char.ofNat (((a * 16 + b) * 16 + c) * 16 + d) :: acc)
    | _, _, _, _ => .error "Invalid unicode escape"
  | '\\' :: _, _ => .error "Invalid escape"
  | c :: rest, acc => parseJStringAux rest (c :: acc)

/-- Value of a digit string. -/
def digitsToNat (ds : List Char) : Nat :=
  ds.foldl (fun acc c => acc * 10 + (c.toNat - '0'.toNat)) 0

/-- JSON number parser (mantissa, optional fraction, optional exponent).
A decoded float is kept as the exact rational it denotes. -/
def parseJNumber (cs : List Char) : Except String (Json × List Char) :=
  let signed := match cs with
    | '-' :: rest => ((-1 : Int), rest)
    | _ => ((1 : Int), cs)
  let sign := signed.1
  let cs1 := signed.2
  let intDs := cs1.takeWhile Char.isDigit
  let cs2 := cs1.dropWhile Char.isDigit
  if intDs.isEmpty then .error "Expecting value"
  else
    let fracPart := match cs2 with
      | '.' :: cs3 =>
        let fds := cs3.takeWhile Char.isDigit
        (some fds, cs3.dropWhile Char.isDigit)
      | _ => (none, cs2)
    match fracPart.1 with
    | some fds =>
      if fds.isEmpty then .error "Expecting digit after decimal point"
      else jNumExp sign intDs (some fds) fracPart.2
    | none => jNumExp sign intDs none fracPart.2
where
  /-- Handles the optional exponent and assembles the numeric value. -/
  jNumExp (sign : Int) (intDs : List Char) (fds : Option (List Char))
      (cs : List Char) : Except String (Json × List Char) :=
    let expPart := match cs with
      | 'e' :: cs1 => (true, cs1)
      | 'E' :: cs1 => (true, cs1)
      | _ => (false, cs)
    if expPart.1 then
      let esigned := match expPart.2 with
        | '-' :: r => ((-1 : Int), r)
        | '+' :: r => ((1 : Int), r)
        | _ => ((1 : Int), expPart.2)
      let eds := esigned.2.takeWhile Char.isDigit
      let rest := esigned.2.dropWhile Char.isDigit
      if eds.isEmpty then .error "Expecting digit in exponent"
      else .ok (.num (.float (jNumVal sign intDs fds (esigned.1 * digitsToNat eds))), rest)
    else
      match fds with
      | none => .ok (.num (.int (sign * digitsToNat intDs)), cs)
      | some _ => .ok (.num (.float (jNumVal sign intDs fds 0)), cs)
  /-- Exact rational value of sign, integer digits, fraction digits, exponent. -/
  jNumVal (sign : Int) (intDs : List Char) (fds : Option (List Char))
      (e : Int) : ℚ :=
    let fl := (fds.getD []).length
    let mantissa : Int := sign * (digitsToNat intDs * 10 ^ fl + digitsToNat (fds.getD []))
    (mantissa : ℚ) * (10 : ℚ) ^ (e - fl)

/-- Parser mode: a plain value, the items of an array after the first
position, or the members of an object after the opening brace. -/
inductive PMode where
  | value
  | arrItems (acc : List Json)
  | objItems (acc : List (String × Json))

/-- Fueled recursive-descent JSON parser (the model of Python json.loads).
Fuel decreases on every recursive call; the top-level wrapper supplies fuel
that is ample for its input. -/
def parseJ : Nat → PMode → List Char → Except String (Json × List Char)
  | 0, _, _ => .error "Out of fuel"
  | fuel + 1, .value, cs =>
    match skipWs cs with
    | [] => .error "Expecting value"
    | 'n' :: 'u' :: 'l' :: 'l' :: rest => .ok (.null, rest)
    | 't' :: 'r' :: 'u' :: 'e' :: rest => .ok (.bool true, rest)
    | 'f' :: 'a' :: 'l' :: 's' :: 'e' :: rest => .ok (.bool false, rest)
    | '"' :: rest =>
      match parseJStringAux rest [] with
      | .ok p => .ok (.str p.1, p.2)
      | .error e => .error e
    | '[' :: rest =>
      match skipWs rest with
      | ']' :: rest2 => .ok (.arr [], rest2)
      | cs2 => parseJ fuel (.arrItems []) cs2
    | c :: rest =>
      if c = lbrace then
        match skipWs rest with
        | [] => .error "Unterminated object"
        | c2 :: rest2 =>
          if c2 = rbrace then .ok (.obj [], rest2)
          else parseJ fuel (.objItems []) (c2 :: rest2)
      else parseJNumber (c :: rest)
  | fuel + 1, .arrItems acc, cs =>
    match parseJ fuel .value cs with
    | .error e => .error e
    | .ok (v, rest) =>
      match skipWs rest with
      | ',' :: rest2 => parseJ fuel (.arrItems (acc ++ [v])) rest2
      | ']' :: rest2 => .ok (.arr (acc ++ [v]), rest2)
      | _ => .error "Expecting comma or bracket"
  | fuel + 1, .objItems acc, cs =>
    match skipWs cs with
    | '"' :: rest =>
      match parseJStringAux rest [] with
      | .error e => .error e
      | .ok (k, rest1) =>
        match skipWs rest1 with
        | ':' :: rest2 =>
          match parseJ fuel .value rest2 with
          | .error e => .error e
          | .ok (v, rest3) =>
            let acc2 := dictSet acc k v
            match skipWs rest3 with
            | ',' :: rest4 => parseJ fuel (.objItems acc2) rest4
            | c :: rest4 =>
              if c = rbrace then .ok (.obj acc2, rest4)
              else .error "Expecting comma or brace"
            | [] => .error "Unterminated object"
        | _ => .error "Expecting colon"
    | _ => .error "Expecting property name"

/-- Model of Python json.loads: parse one JSON document and require only
whitespace after it. -/
def jsonLoads (s : String) : Except String Json :=
  match parseJ (2 * s.data.length + 4) .value s.data with
  | .error e => .error e
  | .ok (v, rest) => if (skipWs rest).isEmpty then .ok v else .error "Extra data"

/-- Python exceptions that matter to mit041._parse_response: TypeError is in
the except clause there, ValueError and AttributeError are not. -/
inductive PyExc where
  | typeError
  | valueError
  | attributeError
deriving DecidableEq

/-- Python float(s) for a string argument: accepts an optionally signed
finite decimal literal (with optional fraction and exponent) surrounded by
whitespace, and fails with ValueError otherwise. The special literals
inf and nan are not modelled (no claim depends on them). -/
def pyFloatOfString (s : String) : Option ℚ :=
  let cs := pyStripList s.data
  let signed := match cs with
    | '-' :: r => ((-1 : ℚ), r)
    | '+' :: r => ((1 : ℚ), r)
    | _ => ((1 : ℚ), cs)
  let intDs := signed.2.takeWhile Char.isDigit
  let cs2 := signed.2.dropWhile Char.isDigit
  let fracPart := match cs2 with
    | '.' :: cs3 => (cs3.takeWhile Char.isDigit, cs3.dropWhile Char.isDigit)
    | _ => ([], cs2)
  let expPart := match fracPart.2 with
    | 'e' :: cs4 => (true, cs4)
    | 'E' :: cs4 => (true, cs4)
    | _ => (false, fracPart.2)
  if intDs.isEmpty ∧ fracPart.1.isEmpty then none
  else if expPart.1 then
    let esigned := match expPart.2 with
      | '-' :: r => ((-1 : Int), r)
      | '+' :: r => ((1 : Int), r)
      | _ => ((1 : Int), expPart.2)
    let eds := esigned.2.takeWhile Char.isDigit
    let rest := esigned.2.dropWhile Char.isDigit
    if eds.isEmpty ∨ ¬ rest.isEmpty then none
    else
      some (signed.1 * (digitsToNat intDs + digitsToNat fracPart.1 / 10 ^ fracPart.1.length)
        * (10 : ℚ) ^ (esigned.1 * digitsToNat eds))
  else if ¬ fracPart.2.isEmpty then none
  else some (signed.1 * (digitsToNat intDs + digitsToNat fracPart.1 / 10 ^ fracPart.1.length))

/-- Python float(x) on a value decoded from JSON: numbers and bools convert,
numeric strings parse (ValueError on a non-numeric string), None and
containers raise TypeError. -/
def pyFloat : Json → Except PyExc ℚ
  | .num (.int n) => .ok (n : ℚ)
  | .num (.float q) => .ok q
  | .str s =>
    match pyFloatOfString s with
    | some q => .ok q
    | none => .error .valueError
  | .bool b => .ok (if b then 1 else 0)
  | .null => .error .typeError
  | .arr _ => .error .typeError
  | .obj _ => .error .typeError

/-- Decimal rendering of a rational whose denominator divides a power of
ten; used to model Python str() of the floats that appear in this program.
Rationals outside that range are rendered as fractions (never reached by
the values this development evaluates). -/
def floatRepr (q : ℚ) : String :=
  if q.den = 1 then toString q.num ++ ".0"
  else
    match (List.range 40).find? (fun k => (10 : Int) ^ k % (q.den : Int) = 0) with
    | some k =>
      let scaled : Int := q.num * ((10 : Int) ^ k / (q.den : Int))
      let mag := scaled.natAbs
      let intPart := mag / 10 ^ k
      let fracPart := mag % 10 ^ k
      let fracStr := toString fracPart
      let pad := String.mk (List.replicate (k - fracStr.data.length) '0')
      (if q.num < 0 then "-" else "") ++ toString intPart ++ "." ++ pad ++ fracStr
    | none => toString q.num ++ "/" ++ toString q.den

mutual

/-- Python repr() of a value decoded from JSON (strings single-quoted). -/
def pyRepr : Json → String
  | .null => "None"
  | .bool true => "True"
  | .bool false => "False"
  | .num (.int n) => toString n
  | .num (.float q) => floatRepr q
  | .str s => String.mk (squote :: s.data) ++ String.mk [squote]
  | .arr xs => "[" ++ pyJoin ", " (pyReprMany xs) ++ "]"
  | .obj kvs => String.mk [lbrace] ++ pyJoin ", " (pyReprFields kvs) ++ String.mk [rbrace]

/-- Python repr() of each element of a list. -/
def pyReprMany : List Json → List String
  | [] => []
  | x :: xs => pyRepr x :: pyReprMany xs

/-- Python repr() of each key-value pair of a dict. -/
def pyReprFields : List (String × Json) → List String
  | [] => []
  | (k, v) :: kvs =>
    (String.mk (squote :: k.data) ++ String.mk [squote] ++ ": " ++ pyRepr v) :: pyReprFields kvs

end

/-- Python str() of a value decoded from JSON. -/
def pyStr : Json → String
  | .str s => s
  | .null => "None"
  | .bool true => "True"
  | .bool false => "False"
  | .num (.int n) => toString n
  | .num (.float q) => floatRepr q
  | .arr xs => pyRepr (.arr xs)
  | .obj kvs => pyRepr (.obj kvs)

/-- Python truthiness of a value decoded from JSON. -/
def pyTruthy : Json → Bool
  | .null => false
  | .bool b => b
  | .num (.int n) => n != 0
  | .num (.float q) => q != 0
  | .str s => !s.data.isEmpty
  | .arr xs => !xs.isEmpty
  | .obj kvs => !kvs.isEmpty

/-- Python min on two numbers. -/
def pyMin (a b : ℚ) : ℚ := if a ≤ b then a else b

/-- Python max on two numbers. -/
def pyMax (a b : ℚ) : ℚ := if b ≤ a then a else b

/-- Round half to even of a rational, the model of Python round(). -/
def roundHalfEven (x : ℚ) : Int :=
  let f := x.floor
  let r := x - (f : ℚ)
  if r < 1 / 2 then f
  else if 1 / 2 < r then f + 1
  else if f % 2 = 0 then f else f + 1

/-- Python round(x, 1) on the exact-rational model of floats. -/
def pyRound1 (q : ℚ) : ℚ := (roundHalfEven (q * 10) : ℚ) / 10

/-- MIT document types (avaliador.models.schemas.MITType). -/
inductive MITType where
  | mit041 | mit043 | mit037 | mit045 | mit065
deriving DecidableEq

/-- Per-pillar score (avaliador.models.schemas.PillarScore). -/
structure PillarScore where
  pillarId : String
  pillarName : String
  weight : ℚ
  score : ℚ
  maxScore : ℚ := 10
deriving DecidableEq

/-- Evaluation metadata (avaliador.models.schemas.EvaluationMetadata).
Timestamps are opaque strings supplied by the environment. -/
structure EvaluationMetadata where
  mitType : MITType
  documentName : String
  wordCount : Nat
  imageCount : Nat
  relevantImages : Nat
  visionEnabled : Bool
  cached : Bool := false
  evaluationTimestamp : String
  pillarScores : Option (List PillarScore) := none
deriving DecidableEq

/-- Evaluation result (avaliador.models.schemas.EvaluationResult). -/
structure EvaluationResult where
  score : ℚ
  recommendations : List String
  metadata : Option EvaluationMetadata := none
deriving DecidableEq

/-- The fallback recommendation of mit041._parse_response, the two adjacent
Python string literals concatenated. -/
def formatErrMsg : String :=
  "Erro ao processar resposta da avaliacao. O formato da resposta do LLM nao foi reconhecido."

/-- Fence stripping at the top of mit041._parse_response: strip, drop a
leading three-backtick marker with or without the json tag, drop a trailing
three-backtick marker, strip again. -/
def stripFences (response : String) : String :=
  let r := pyStrip response
  let r := if pyStartsWith r "```json" then pyDrop r 7 else r
  let r := if pyStartsWith r "```" then pyDrop r 3 else r
  let r := if pyEndsWith r "```" then pyDropLast r 3 else r
  pyStrip r

/-- List-comprehension filter of mit041._parse_response: keep r when
r and r.strip() are both truthy; calling strip() on a truthy non-string
raises AttributeError. -/
def cleanRecs : List Json → Except PyExc (List String)
  | [] => .ok []
  | r :: rs =>
    if pyTruthy r then
      match r with
      | .str s =>
        if pyTruthy (.str (pyStrip s)) then
          match cleanRecs rs with
          | .ok tail => .ok (s :: tail)
          | .error e => .error e
        else cleanRecs rs
      | _ => .error .attributeError
    else cleanRecs rs

/-- Body of the try block of mit041._parse_response after json.loads
succeeded: read score with default 0, coerce and clamp it, read and clean
recommendations. A non-dict top level raises AttributeError at data.get. -/
def parseResponseBody (data : Json) : Except PyExc EvaluationResult :=
  match data with
  | .obj kvs =>
    let scoreJ := (dictGet kvs "score").getD (.num (.int 0))
    (match pyFloat scoreJ with
     | .error e => .error e
     | .ok score0 =>
       let score := pyMax 0 (pyMin 10 score0)
       let recsJ := (dictGet kvs "recommendations").getD (.arr [])
       let recsL := match recsJ with
         | .arr xs => xs
         | other => [Json.str (pyStr other)]
       match cleanRecs recsL with
       | .error e => .error e
       | .ok recs => .ok (EvaluationResult.mk (pyRound1 score) recs none))
  | _ => .error .attributeError

/-- MIT041Evaluator._parse_response: strip code fences, decode, coerce.
The Python except clause catches json.JSONDecodeError, KeyError and
TypeError and returns the zero-score fallback; ValueError and
AttributeError propagate to the caller as exceptions. -/
def parseResponse (response : String) : Except PyExc EvaluationResult :=
  let body := stripFences response
  match jsonLoads body with
  | .error _ => .ok (EvaluationResult.mk 0 [formatErrMsg] none)
  | .ok data =>
    match parseResponseBody data with
    | .ok r => .ok r
    | .error .typeError => .ok (EvaluationResult.mk 0 [formatErrMsg] none)
    | .error e => .error e

/-- Diagram description (avaliador.models.schemas.DiagramDescription). -/
structure DiagramDescription where
  index : Nat
  description : String
  diagramType : Option String := none
deriving DecidableEq

/-- Extraction metadata (avaliador.models.schemas.ExtractionMetadata). -/
structure ExtractionMetadata where
  wordCount : Nat
  imageCount : Nat
  relevantImages : Nat
  visionEnabled : Bool
  extractionTimestamp : String
deriving DecidableEq

/-- Extraction result (avaliador.models.schemas.ExtractionResult). -/
structure ExtractionResult where
  markdown : String
  diagrams : List DiagramDescription
  metadata : ExtractionMetadata
deriving DecidableEq

/-- BaseEvaluator.validate_extraction: truthiness of the markdown field. -/
def validateExtraction (extraction : ExtractionResult) : Bool :=
  !extraction.markdown.data.isEmpty

/-- Modelled from the spec: the judge backend (text) response of spec
section 6, complete(...) yielding content and finish_reason, with
finish_reason "length" signalling truncation. The client method
chat_completion_with_metadata that mit041.py calls is not among the sources
under src, only its caller is. -/
structure LLMResponse where
  content : String
  finishReason : Option String
deriving DecidableEq

/-- Outcome of the judge invocation as observed by the try block of
MIT041Evaluator.evaluate: a response, a raised DTAError, or any other
raised exception. -/
inductive LLMOutcome where
  | success (response : LLMResponse)
  | dtaError (msg : String)
  | unexpectedError (msg : String)
deriving DecidableEq

/-- Recommendation text returned when validate_extraction fails. -/
def invalidExtractionMsg : String :=
  "Documento vazio ou invalido. Nao foi possivel extrair conteudo."

/-- Recommendation text returned on judge truncation, the two adjacent
Python string literals concatenated around the max-token setting. -/
def truncationMsg (maxTokens : Nat) : String :=
  "Resposta da avaliacao foi truncada por limite de tokens. Aumente LLM_MAX_TOKENS no arquivo .env (valor atual: " ++ toString maxTokens ++ ")."

/-- MIT041Evaluator.evaluate. The judge call itself is external, so its
outcome is an argument; maxTokens models settings.llm_max_tokens and now the
metadata timestamp. The Bool of the pair records whether _parse_response was
invoked on the response content. -/
def evaluate (extraction : ExtractionResult) (includeMetadata : Bool)
    (outcome : LLMOutcome) (maxTokens : Nat) (now : String) :
    Except PyExc EvaluationResult × Bool :=
  if ¬ validateExtraction extraction then
    (.ok (EvaluationResult.mk 0 [invalidExtractionMsg] none), false)
  else
    match outcome with
    | .success resp =>
      if resp.finishReason == some "length" then
        (.ok (EvaluationResult.mk 0 [truncationMsg maxTokens] none), false)
      else
        match parseResponse resp.content with
        | .error e => (.error e, true)
        | .ok result =>
          if includeMetadata then
            (.ok (EvaluationResult.mk result.score result.recommendations
              (some (EvaluationMetadata.mk MITType.mit041 "unknown"
                extraction.metadata.wordCount extraction.metadata.imageCount
                extraction.metadata.relevantImages extraction.metadata.visionEnabled
                false now none))), true)
          else (.ok result, true)
    | .dtaError msg =>
      (.ok (EvaluationResult.mk 0 ["Erro ao avaliar documento: " ++ msg] none), false)
    | .unexpectedError msg =>
      (.ok (EvaluationResult.mk 0 ["Erro inesperado ao avaliar documento: " ++ msg] none), false)

/-- Association-list lookup keyed by strings (model of one file per key in a
store directory). -/
def alistLookup {α : Type} (st : List (String × α)) (k : String) : Option α :=
  (st.find? (fun p => p.1 == k)).map (fun p => p.2)

/-- Remove the entry of a key (Path.unlink). -/
def alistErase {α : Type} (st : List (String × α)) (k : String) : List (String × α) :=
  st.filter (fun p => !(p.1 == k))

/-- Write the entry of a key, overwriting any prior entry unconditionally. -/
def alistWrite {α : Type} (st : List (String × α)) (k : String) (v : α) :
    List (String × α) :=
  (k, v) :: alistErase st k

/-- Stored cache file content: either text that json.loads decodes to a
payload, or undecodable text. Serialization through json.dumps and back is
the identity on these payloads (they are serializable mappings). -/
inductive StoredEntry where
  | good (payload : Json)
  | corrupt

/-- On-disk extraction cache: one entry per content hash. -/
abbrev CacheStore := List (String × StoredEntry)

/-- CacheManager configuration: settings.cache_enabled. -/
structure CacheCfg where
  enabled : Bool

/-- SHA-256 of the full byte stream of a file (CacheManager._get_file_hash
reads fixed-size chunks, digesting the whole stream), modelled as an
injective encoding of the bytes. -/
def fileSha256 (content : List Nat) : String := "sha256-" ++ toString content

/-- CacheManager.get: hash the file content, look the entry up; a malformed
entry is removed and treated as absent. Returns the result and the store
after the call. -/
def cacheGet (cfg : CacheCfg) (st : CacheStore) (content : List Nat) :
    Option Json × CacheStore :=
  if ¬ cfg.enabled then (none, st)
  else
    let h := fileSha256 content
    match alistLookup st h with
    | none => (none, st)
    | some (.good payload) => (some payload, st)
    | some .corrupt => (none, alistErase st h)

/-- The provenance object CacheManager.save attaches under _cache_metadata. -/
def cacheMetadataObj (now sourceFile h : String) : Json :=
  .obj [("cached_at", .str now), ("source_file", .str sourceFile), ("file_hash", .str h)]

/-- CacheManager.save: hash the content, add _cache_metadata to the very
extraction dict the caller passed (in-place in Python; here the first
component of the result is the value of the caller-held dict after the
call), and write the dict to the location keyed by the hash. -/
def cacheSave (cfg : CacheCfg) (st : CacheStore) (sourceFile : String)
    (content : List Nat) (extraction : List (String × Json)) (now : String) :
    List (String × Json) × CacheStore :=
  if ¬ cfg.enabled then (extraction, st)
  else
    let h := fileSha256 content
    let extraction2 := dictSet extraction "_cache_metadata" (cacheMetadataObj now sourceFile h)
    (extraction2, alistWrite st h (.good (.obj extraction2)))

/-- ImageFilter thresholds with their default values. -/
structure ImageFilterCfg where
  minWidth : Nat := 200
  minHeight : Nat := 200
  minArea : Nat := 40000
  minAspect : ℚ := 1 / 5
  maxAspect : ℚ := 5
deriving DecidableEq

/-- Result of ImageFilter.analyze (ingestors.image_filter.ImageAnalysis). -/
structure ImageAnalysis where
  isRelevant : Bool
  reason : String
  width : Nat := 0
  height : Nat := 0
  area : Nat := 0
  aspect : ℚ := 0
deriving DecidableEq

/-- Python format spec .2f on the exact-rational model of floats. -/
def fmt2 (q : ℚ) : String :=
  let n := roundHalfEven (q * 100)
  let mag := n.natAbs
  (if n < 0 then "-" else "") ++ toString (mag / 100) ++ "." ++
    (if mag % 100 < 10 then "0" else "") ++ toString (mag % 100)

/-- Rejection reason of the width check. -/
def widthReason (cfg : ImageFilterCfg) (w : Nat) : String :=
  "Width " ++ toString w ++ "px < minimum " ++ toString cfg.minWidth ++ "px"

/-- Rejection reason of the height check. -/
def heightReason (cfg : ImageFilterCfg) (h : Nat) : String :=
  "Height " ++ toString h ++ "px < minimum " ++ toString cfg.minHeight ++ "px"

/-- Rejection reason of the area check. -/
def areaReason (cfg : ImageFilterCfg) (area : Nat) : String :=
  "Area " ++ toString area ++ "px^2 < minimum " ++ toString cfg.minArea ++ "px^2"

/-- Rejection reason of the lower aspect-ratio check. -/
def lowAspectReason (cfg : ImageFilterCfg) (ar : ℚ) : String :=
  "Aspect ratio " ++ fmt2 ar ++ " < minimum " ++ floatRepr cfg.minAspect

/-- Rejection reason of the upper aspect-ratio check. -/
def highAspectReason (cfg : ImageFilterCfg) (ar : ℚ) : String :=
  "Aspect ratio " ++ fmt2 ar ++ " > maximum " ++ floatRepr cfg.maxAspect

/-- Acceptance reason. -/
def acceptReason : String := "Image meets all criteria for a diagram"

/-- ImageFilter.analyze: area, guarded aspect ratio, then the five checks in
order, first failing check winning. -/
def analyze (cfg : ImageFilterCfg) (width height : Nat) : ImageAnalysis :=
  let area := width * height
  let aspect : ℚ := if 0 < height then (width : ℚ) / (height : ℚ) else 0
  if width < cfg.minWidth then
    ImageAnalysis.mk false (widthReason cfg width) width height area aspect
  else if height < cfg.minHeight then
    ImageAnalysis.mk false (heightReason cfg height) width height area aspect
  else if area < cfg.minArea then
    ImageAnalysis.mk false (areaReason cfg area) width height area aspect
  else if aspect < cfg.minAspect then
    ImageAnalysis.mk false (lowAspectReason cfg aspect) width height area aspect
  else if cfg.maxAspect < aspect then
    ImageAnalysis.mk false (highAspectReason cfg aspect) width height area aspect
  else
    ImageAnalysis.mk true acceptReason width height area aspect

/-- Python str.lower (ASCII case fold, as used on MIT type tags). -/
def pyLower (s : String) : String := String.mk (s.data.map Char.toLower)

/-- Python str.replace for a non-empty needle, accumulator form on fuel. -/
def pyReplaceAux (old new : List Char) : Nat → List Char → List Char
  | 0, cs => cs
  | _, [] => []
  | fuel + 1, c :: cs =>
    if old.isPrefixOf (c :: cs) then new ++ pyReplaceAux old new fuel ((c :: cs).drop old.length)
    else c :: pyReplaceAux old new fuel cs

/-- Python str.replace for a non-empty needle. -/
def pyReplace (s old new : String) : String :=
  String.mk (pyReplaceAux old.data new.data s.data.length s.data)

/-- One reference excerpt: title and content slice. -/
structure Excerpt where
  title : String
  content : String
deriving DecidableEq

/-- Excerpt group per source sample (the sections dict of
ReferenceManager._extract_key_sections). -/
structure RefGroup where
  source : String
  excerpts : List Excerpt
deriving DecidableEq

/-- Header detection of _extract_key_sections: startswith # or (startswith
** and endswith **), with Python operator precedence. -/
def isHeaderLine (l : String) : Bool :=
  pyStartsWith l "#" || (pyStartsWith l "**" && pyEndsWith l "**")

/-- Title of a header line: line.strip of the characters # * and space. -/
def headerTitle (l : String) : String := pyStripChars ['#', '*', ' '] l

/-- Section close of _extract_key_sections: keep a section of more than
three lines whose text contains a pipe or exceeds 200 characters, content
truncated to 2000 characters. -/
def flushSection (title : String) (cur : List String) : List Excerpt :=
  if 3 < cur.length then
    let text := pyJoin "\n" cur
    if pyContainsChar text '|' || 200 < pyLen text then
      [Excerpt.mk title (pyTake text 2000)]
    else []
  else []

/-- Line loop of _extract_key_sections. The in_table variable of the source
is assigned but never read, so it is not modelled. -/
def eksLoop : List String → List String → String → List Excerpt → List Excerpt
  | [], cur, title, acc => acc ++ flushSection title cur
  | l :: ls, cur, title, acc =>
    if isHeaderLine l then eksLoop ls [l] (headerTitle l) (acc ++ flushSection title cur)
    else eksLoop ls (cur ++ [l]) title acc

/-- ReferenceManager._extract_key_sections. -/
def extractKeySections (markdown sourceName : String) : RefGroup :=
  RefGroup.mk sourceName (eksLoop (pySplit markdown '\n') [] "" [])

/-- Normalization at the top of load_references:
mit_type.lower().replace with mit and 0 removed, then the mit prefix. -/
def normalizeMitType (mitType : String) : String :=
  "mit" ++ pyReplace (pyReplace (pyLower mitType) "mit" "") "0" ""

/-- One sample document: file name, stem, and modification time (opaque). -/
structure SampleFile where
  name : String
  stem : String
  mtime : String
deriving DecidableEq

/-- Filesystem and extractor environment of load_references for the
requested document type, fixed across calls that see an unchanged corpus:
whether the samples directory exists, its docx files in glob order, the
extraction collaborator (none models a raised extraction error), and
whether the docling import succeeds. -/
structure RefEnv where
  samplesDirExists : Bool
  docxFiles : List SampleFile
  extractResult : String → Option String
  doclingAvailable : Bool

/-- Insert a sample into a list sorted by file name. -/
def insertByName (f : SampleFile) : List SampleFile → List SampleFile
  | [] => [f]
  | g :: gs =>
    if compare f.name g.name ≠ Ordering.gt then f :: g :: gs
    else g :: insertByName f gs

/-- Sorted(glob) by file name. -/
def sortByName : List SampleFile → List SampleFile
  | [] => []
  | f :: fs => insertByName f (sortByName fs)

/-- ReferenceManager._get_samples_hash: empty string when the directory is
missing, else a digest of the sorted (name, mtime) pairs, modelled as an
injective encoding. -/
def samplesHash (env : RefEnv) : String :=
  if ¬ env.samplesDirExists then ""
  else "h-" ++ toString ((sortByName env.docxFiles).map (fun f => (f.name, f.mtime)))

/-- Cached references file content: corpus hash plus excerpt groups. -/
structure RefCacheEntry where
  hash : String
  references : List RefGroup
deriving DecidableEq

/-- References cache store: one file per normalized document type. -/
abbrev RefCache := List (String × RefCacheEntry)

/-- ReferenceManager._load_cached_references: present and hash-matching, or
absent. -/
def loadCachedRefs (st : RefCache) (dirName curHash : String) : Option RefCacheEntry :=
  match alistLookup st dirName with
  | none => none
  | some c => if c.hash == curHash then some c else none

/-- Result of load_references: the returned groups, the references cache
after the call, and how many extractor.extract invocations were performed. -/
structure LoadResult where
  references : List RefGroup
  state : RefCache
  extractions : Nat

/-- Extraction loop of load_references over the docx samples: a sample
whose extraction raises is skipped, a sample whose sections hold no
excerpt is dropped. -/
def extractGroups (env : RefEnv) : List RefGroup :=
  env.docxFiles.filterMap (fun f =>
    match env.extractResult f.name with
    | none => none
    | some md =>
      let g := extractKeySections md f.stem
      if g.excerpts.isEmpty then none else some g)

/-- ReferenceManager.load_references: normalize the type, return the cached
groups on a corpus-hash match, otherwise extract every docx sample (failed
samples skipped, groups without excerpts dropped) and cache the result only
when it is non-empty. -/
def loadReferences (env : RefEnv) (st : RefCache) (mitType : String) : LoadResult :=
  let dirName := normalizeMitType mitType
  let curHash := samplesHash env
  match loadCachedRefs st dirName curHash with
  | some c => LoadResult.mk c.references st 0
  | none =>
    if ¬ env.samplesDirExists then LoadResult.mk [] st 0
    else if env.docxFiles.isEmpty then LoadResult.mk [] st 0
    else if ¬ env.doclingAvailable then LoadResult.mk [] st 0
    else
      let refs := extractGroups env
      let st2 := if refs.isEmpty then st else alistWrite st dirName (RefCacheEntry.mk curHash refs)
      LoadResult.mk refs st2 env.docxFiles.length

/-- One excerpt as rendered into the prompt section. -/
structure REntry where
  title : String
  source : String
  content : String
deriving DecidableEq

/-- Assembly state of get_reference_prompt_section: rendered excerpts in
order, total_chars, excerpt_count. -/
structure RState where
  entries : List REntry
  total : Nat
  count : Nat
deriving DecidableEq

/-- The truncation marker appended to a cut excerpt (6 characters). -/
def truncMarker : String := "\n[...]"

/-- Inner loop of get_reference_prompt_section over the excerpts of one
group: stop on excerpt-count or budget exhaustion, truncate an over-budget
excerpt when at least 500 characters of budget remain, stop on the group
otherwise. -/
def renderExcerpts (maxExcerpts maxChars : Nat) (source : String) :
    List Excerpt → RState → RState
  | [], st => st
  | e :: es, st =>
    if maxExcerpts ≤ st.count ∨ maxChars ≤ st.total then st
    else
      if maxChars < st.total + pyLen e.content then
        let remaining := maxChars - st.total
        if remaining < 500 then st
        else
          renderExcerpts maxExcerpts maxChars source es
            (RState.mk
              (st.entries ++ [REntry.mk e.title source (pyTake e.content remaining ++ truncMarker)])
              (st.total + pyLen (pyTake e.content remaining ++ truncMarker))
              (st.count + 1))
      else
        renderExcerpts maxExcerpts maxChars source es
          (RState.mk (st.entries ++ [REntry.mk e.title source e.content])
            (st.total + pyLen e.content) (st.count + 1))

/-- Outer loop of get_reference_prompt_section over the groups: break out
entirely once the excerpt count is exhausted. -/
def renderGroups (maxExcerpts maxChars : Nat) : List RefGroup → RState → RState
  | [], st => st
  | g :: gs, st =>
    if maxExcerpts ≤ st.count then st
    else renderGroups maxExcerpts maxChars gs
      (renderExcerpts maxExcerpts maxChars g.source g.excerpts st)

/-- The five prompt_parts lines appended per rendered excerpt. -/
def entryParts (n : REntry) : List String :=
  ["\n### Referencia: " ++ n.title, "Fonte: " ++ n.source, "```", n.content, "```\n"]

/-- The three header prompt_parts lines. -/
def headerParts : List String :=
  ["\n## EXEMPLOS DE REFERENCIA (MITs nota 8+)\n",
   "Os trechos abaixo sao de documentos MIT aprovados com nota >= 8.0.",
   "Use-os como referencia de qualidade e padrao esperado:\n"]

/-- The closing instruction line, the two adjacent Python literals
concatenated. -/
def instructionPart : String :=
  "\n**INSTRUCAO**: Compare o documento em avaliacao com estes exemplos. Documentos de qualidade similar devem receber nota >= 8.0.\n"

/-- ReferenceManager.get_reference_prompt_section after load_references
returned the groups: empty on no references or no rendered excerpt, else
the newline join of header, per-excerpt parts in rendering order, and the
instruction line (the source appends the same five parts per excerpt while
looping; collecting them per rendered entry yields the identical list). -/
def renderPromptSection (references : List RefGroup) (maxExcerpts maxChars : Nat) : String :=
  if references.isEmpty then ""
  else
    let st := renderGroups maxExcerpts maxChars references (RState.mk [] 0 0)
    if st.count = 0 then ""
    else pyJoin "\n" (headerParts ++ (st.entries.map entryParts).flatten ++ [instructionPart])

/-- ReferenceManager.get_reference_prompt_section including the
load_references call, returning the prompt text and the references cache
after the call. -/
def getReferencePromptSection (env : RefEnv) (st : RefCache) (mitType : String)
    (maxExcerpts maxChars : Nat) : String × RefCache :=
  let lr := loadReferences env st mitType
  (renderPromptSection lr.references maxExcerpts maxChars, lr.state)

/-- Default ImageFilter thresholds (module constants of image_filter.py). -/
def defaultFilterCfg : ImageFilterCfg := ImageFilterCfg.mk 200 200 40000 (1 / 5) 5

/-- The concrete raw response of the C2 claim. -/
def c2Input : String := "\x7b\"score\": 12, \"recommendations\": [\"a\", \"\", \"  b  \"]\x7d"

/-- Excerpts of a group list in group order and excerpt order, each paired
with its group source. -/
def flattenRefs (refs : List RefGroup) : List (String × Excerpt) :=
  (refs.map (fun g => g.excerpts.map (fun e => (g.source, e)))).flatten

/-- A rendered prompt entry matches a source excerpt when title and source
agree and the content is the original or a truncation of it with the
marker appended. -/
def entryMatches (n : REntry) (p : String × Excerpt) : Prop :=
  n.title = p.2.title ∧ n.source = p.1 ∧
    (n.content = p.2.content ∨ ∃ r, n.content = pyTake p.2.content r ++ truncMarker)

/-- Specialization of entryMatches to a fixed source. -/
def entryMatchesSrc (source : String) (n : REntry) (e : Excerpt) : Prop :=
  entryMatches n (source, e)

/-- Sample environment whose single document extracts to an empty markdown,
so no excerpt is retained. -/
def envNoExcerpts : RefEnv :=
  RefEnv.mk true [SampleFile.mk "a.docx" "a" "t1"] (fun _ => some "") true

/-- Sample environment whose single document yields one retained excerpt
(four lines with a pipe). -/
def envGoodRefs : RefEnv :=
  RefEnv.mk true [SampleFile.mk "a.docx" "a" "t1"] (fun _ => some "a|b\nc\nd\ne") true

/-- One group with one 600-character excerpt, for the budget analysis. -/
def bigExcerptRefs : List RefGroup :=
  [RefGroup.mk "s" [Excerpt.mk "t" (String.mk (List.replicate 600 'a'))]]

/-- Enabled cache configuration. -/
def exCacheCfg : CacheCfg := CacheCfg.mk true

/-- A small serializable extraction payload. -/
def exPayload : List (String × Json) := [("markdown", Json.str "conteudo")]

/-- Bytes of a small document. -/
def exBytes : List Nat := [1, 2, 3]

/-- A store holding one undecodable entry at the key of the bytes [7]. -/
def exCorruptStore : CacheStore := [(fileSha256 [7], StoredEntry.corrupt)]

/-- A small extraction result that passes validate_extraction. -/
def exExtraction : ExtractionResult :=
  ExtractionResult.mk "conteudo do documento" [] (ExtractionMetadata.mk 10 0 0 false "t0")

/-- A judge response truncated by the token limit. -/
def exTruncResp : LLMResponse := LLMResponse.mk "resposta parcial" (some "length")

/-- Lookup after an unconditional write finds the written value. -/
theorem alistLookup_write {α : Type} (st : List (String × α)) (k : String) (v : α) :
    alistLookup (alistWrite st k v) k = some v := by
  simp [alistLookup, alistWrite, List.find?_cons]

/-- Lookup after erasing a key finds nothing. -/
theorem alistLookup_erase {α : Type} (st : List (String × α)) (k : String) :
    alistLookup (alistErase st k) k = none := by
  induction st with
  | nil => rfl
  | cons p st ih =>
    by_cases h : p.1 == k
    · simp only [alistErase, List.filter_cons, h]
      exact ih
    · simpa [alistLookup, alistErase, List.filter_cons, h, List.find?_cons] using ih

/-- Scanning the replacement map of dictSet for the written key finds the
written pair as soon as any pair carries that key. -/
theorem find?_map_replace_self (k : String) (v : Json) :
    ∀ kvs : List (String × Json), kvs.any (fun p => p.1 == k) →
      List.find? (fun p => p.1 == k)
        (kvs.map (fun q => if q.1 == k then (k, v) else q)) = some (k, v) := by
  intro kvs
  induction kvs with
  | nil => intro h; simp at h
  | cons p rest ih =>
    intro h
    rw [List.map_cons]
    by_cases hp : p.1 == k
    · have hfp : (if p.1 == k then (k, v) else p) = (k, v) := by rw [if_pos hp]
      rw [hfp]
      simp [List.find?]
    · have hfp : (if p.1 == k then (k, v) else p) = p := by
        rw [if_neg (by simp [hp])]
      have hp0 : (p.1 == k) = false := by simpa using hp
      have hrest : rest.any (fun q => q.1 == k) := by
        simpa [List.any_cons, hp] using h
      rw [hfp]
      simp only [List.find?, hp0]
      exact ih hrest

/-- Scanning the replacement map of dictSet for a different key is the same
as scanning the original list. -/
theorem find?_map_replace_other (k : String) (v : Json) (k2 : String) (h : k2 ≠ k) :
    ∀ kvs : List (String × Json),
      List.find? (fun p => p.1 == k2)
        (kvs.map (fun q => if q.1 == k then (k, v) else q))
        = List.find? (fun p => p.1 == k2) kvs := by
  have hkk2 : (k == k2) = false := by
    simp only [beq_eq_false_iff_ne]
    exact fun e => h e.symm
  intro kvs
  induction kvs with
  | nil => rfl
  | cons p rest ih =>
    rw [List.map_cons]
    by_cases hp : p.1 == k
    · have hp1 : p.1 = k := by simpa [beq_iff_eq] using hp
      have hp2 : (p.1 == k2) = false := by rw [hp1]; exact hkk2
      have hfp : (if p.1 == k then (k, v) else p) = (k, v) := by rw [if_pos hp]
      rw [hfp]
      simp only [List.find?, hkk2, hp2]
      exact ih
    · have hfp : (if p.1 == k then (k, v) else p) = p := by
        rw [if_neg (by simp [hp])]
      rw [hfp]
      by_cases hp2 : p.1 == k2
      · simp only [List.find?, hp2]
      · have hp20 : (p.1 == k2) = false := by simpa using hp2
        simp only [List.find?, hp20]
        exact ih

/-- Dict read after writing the same key yields the written value. -/
theorem dictGet_set_self (kvs : List (String × Json)) (k : String) (v : Json) :
    dictGet (dictSet kvs k v) k = some v := by
  by_cases hany : kvs.any (fun p => p.1 == k)
  · unfold dictSet
    rw [if_pos hany]
    unfold dictGet
    rw [find?_map_replace_self k v kvs hany]
    rfl
  · have hfind : kvs.find? (fun p => p.1 == k) = none := by
      rw [List.find?_eq_none]
      intro p hp hk
      exact hany (List.any_eq_true.mpr ⟨p, hp, hk⟩)
    unfold dictSet
    rw [if_neg hany]
    unfold dictGet
    rw [List.find?_append, hfind]
    simp [List.find?]

/-- Dict read of a different key is unchanged by a write. -/
theorem dictGet_set_other (kvs : List (String × Json)) (k : String) (v : Json)
    (k2 : String) (h : k2 ≠ k) : dictGet (dictSet kvs k v) k2 = dictGet kvs k2 := by
  have hkk2 : (k == k2) = false := by
    simp only [beq_eq_false_iff_ne]
    exact fun e => h e.symm
  by_cases hany : kvs.any (fun p => p.1 == k)
  · unfold dictSet
    rw [if_pos hany]
    unfold dictGet
    rw [find?_map_replace_other k v k2 h kvs]
  · unfold dictSet
    rw [if_neg hany]
    unfold dictGet
    rw [List.find?_append]
    simp [List.find?, hkk2]

/-- C1 counterexample: on the raw response [] the fence-stripped text
decodes to a non-object top level, and _parse_response raises
AttributeError (list.get does not exist) instead of returning the
zero-score format-not-recognized result, because AttributeError is not in
the except clause. -/
theorem c1_counterexample : parseResponse "[]" = Except.error PyExc.attributeError := by
  with_unfolding_all rfl

/-- C1 (amended): whenever structured decoding of the fence-stripped text
fails to produce a value, _parse_response returns, without raising, a
result with score 0.0 and exactly the one recommendation stating that the
response format was not recognized. (A successfully decoded non-object top
level or non-numeric score string instead raises an uncaught exception.) -/
theorem c1_theorem (response : String)
    (h : (jsonLoads (stripFences response)).isOk = false) :
    parseResponse response = Except.ok (EvaluationResult.mk 0 [formatErrMsg] none) := by
  unfold parseResponse
  cases hdec : jsonLoads (stripFences response) with
  | error e => simp [hdec]
  | ok v => rw [hdec] at h; simp [Except.isOk, Except.toBool] at h

/-- C1 witness: the raw response not json fails JSON decoding and yields
the fallback result. -/
theorem c1_witness :
    (jsonLoads (stripFences "not json")).isOk = false ∧
      parseResponse "not json" = Except.ok (EvaluationResult.mk 0 [formatErrMsg] none) :=
  ⟨by with_unfolding_all decide, c1_theorem "not json" (by with_unfolding_all decide)⟩

/-- C2 counterexample: on the concrete C2 input the parser returns score
10.0 but recommendations [a,   b  ] — the blank element is dropped yet the
surviving elements are not trimmed, so the list differs from [a, b]. -/
theorem c2_counterexample :
    parseResponse c2Input = Except.ok (EvaluationResult.mk 10 ["a", "  b  "] none) ∧
      (["a", "  b  "] : List String) ≠ ["a", "b"] := by
  constructor
  · with_unfolding_all rfl
  · decide

/-- C2 (amended): parsing the C2 input returns score 10.0 (coerced,
clamped into the 0-10 range, rounded to one decimal) and recommendations
[a,   b  ]: blank elements are dropped but surviving elements keep their
surrounding whitespace. -/
theorem c2_theorem :
    parseResponse c2Input = Except.ok (EvaluationResult.mk 10 ["a", "  b  "] none) := by
  with_unfolding_all rfl

/-- C3: when the extraction validates and the judge reports finish_reason
length, evaluate returns score 0.0 with the single token-limit
recommendation and never invokes _parse_response on the content (the Bool
component records a parser invocation). -/
theorem c3_theorem (extraction : ExtractionResult) (includeMetadata : Bool)
    (resp : LLMResponse) (maxTokens : Nat) (now : String)
    (hval : validateExtraction extraction = true)
    (hfin : resp.finishReason = some "length") :
    evaluate extraction includeMetadata (LLMOutcome.success resp) maxTokens now
      = (Except.ok (EvaluationResult.mk 0 [truncationMsg maxTokens] none), false) := by
  unfold evaluate
  rw [hval]
  simp [hfin]

/-- C3 witness: a concrete valid extraction and a truncated judge response. -/
theorem c3_witness :
    validateExtraction exExtraction = true ∧
      exTruncResp.finishReason = some "length" ∧
      evaluate exExtraction true (LLMOutcome.success exTruncResp) 2000 "t1"
        = (Except.ok (EvaluationResult.mk 0 [truncationMsg 2000] none), false) :=
  ⟨by decide, rfl, c3_theorem exExtraction true exTruncResp 2000 "t1" (by decide) rfl⟩

/-- C4: with caching enabled, get after save on byte-identical content
returns exactly the payload dict the caller passed to save (whose value
after the call includes the attached provenance metadata, C10): the
round-trip through the content-addressed store. -/
theorem c4_theorem (cfg : CacheCfg) (st : CacheStore) (path : String)
    (content : List Nat) (payload : List (String × Json)) (now : String)
    (henabled : cfg.enabled = true) :
    (cacheGet cfg (cacheSave cfg st path content payload now).2 content).1
      = some (Json.obj (cacheSave cfg st path content payload now).1) := by
  unfold cacheSave cacheGet
  rw [henabled]
  simp only [not_true, if_neg, ite_false]
  rw [alistLookup_write]

/-- C4 witness: concrete round-trip on a small payload. -/
theorem c4_witness :
    exCacheCfg.enabled = true ∧
      (cacheGet exCacheCfg (cacheSave exCacheCfg [] "doc.docx" exBytes exPayload "t0").2 exBytes).1
        = some (Json.obj (cacheSave exCacheCfg [] "doc.docx" exBytes exPayload "t0").1) :=
  ⟨rfl, c4_theorem exCacheCfg [] "doc.docx" exBytes exPayload "t0" rfl⟩

/-- C5: with caching enabled, when the store location of a file holds an
undecodable entry, get returns absent, removes the corrupt entry, and a
subsequent get of the same content finds no entry. -/
theorem c5_theorem (cfg : CacheCfg) (st : CacheStore) (content : List Nat)
    (henabled : cfg.enabled = true)
    (hcorrupt : alistLookup st (fileSha256 content) = some StoredEntry.corrupt) :
    (cacheGet cfg st content).1 = none ∧
      alistLookup (cacheGet cfg st content).2 (fileSha256 content) = none ∧
      (cacheGet cfg (cacheGet cfg st content).2 content).1 = none := by
  have hget : cacheGet cfg st content = (none, alistErase st (fileSha256 content)) := by
    unfold cacheGet
    rw [henabled]
    simp only [not_true, if_neg, ite_false]
    rw [hcorrupt]
  refine ⟨by rw [hget], ?_, ?_⟩
  · rw [hget]
    exact alistLookup_erase st (fileSha256 content)
  · rw [hget]
    unfold cacheGet
    rw [henabled]
    simp only [not_true, if_neg, ite_false]
    rw [alistLookup_erase st (fileSha256 content)]

/-- C5 witness: a concrete store with one corrupt entry self-heals. -/
theorem c5_witness :
    exCacheCfg.enabled = true ∧
      alistLookup exCorruptStore (fileSha256 [7]) = some StoredEntry.corrupt ∧
      (cacheGet exCacheCfg exCorruptStore [7]).1 = none ∧
      alistLookup (cacheGet exCacheCfg exCorruptStore [7]).2 (fileSha256 [7]) = none ∧
      (cacheGet exCacheCfg (cacheGet exCacheCfg exCorruptStore [7]).2 [7]).1 = none := by
  have h := c5_theorem exCacheCfg exCorruptStore [7] rfl rfl
  exact ⟨rfl, rfl, h.1, h.2.1, h.2.2⟩

/-- C7 counterexample: analyze 300 0 with default thresholds rejects with
the height-minimum reason, not the aspect-ratio lower-bound reason the
claim names. -/
theorem c7_counterexample :
    (analyze defaultFilterCfg 300 0).isRelevant = false ∧
      (analyze defaultFilterCfg 300 0).reason = heightReason defaultFilterCfg 0 ∧
      heightReason defaultFilterCfg 0 ≠ lowAspectReason defaultFilterCfg 0 := by
  refine ⟨by with_unfolding_all rfl, by with_unfolding_all rfl, ?_⟩
  with_unfolding_all decide

/-- C7 (amended): analyze width 0 is total, records aspect ratio 0 and
rejects the image, but under default thresholds the rejection comes from
the width or height minimum check (height 0 is below 200); the aspect-ratio
lower-bound check is never reached and no division is performed. -/
theorem c7_theorem (width : Nat) :
    (analyze defaultFilterCfg width 0).aspect = 0 ∧
      (analyze defaultFilterCfg width 0).isRelevant = false ∧
      (analyze defaultFilterCfg width 0).reason
        = (if width < 200 then widthReason defaultFilterCfg width
           else heightReason defaultFilterCfg 0) := by
  unfold analyze
  by_cases hw : width < 200
  · simp [defaultFilterCfg, hw]
  · simp [defaultFilterCfg, hw]

/-- C10: with caching enabled, save returns (to the caller, through the
in-place mutation) the payload dict extended with the _cache_metadata key
holding the timestamp, source path and content hash, every other key
unchanged. -/
theorem c10_theorem (cfg : CacheCfg) (st : CacheStore) (path : String)
    (content : List Nat) (payload : List (String × Json)) (now : String)
    (henabled : cfg.enabled = true) :
    (cacheSave cfg st path content payload now).1
        = dictSet payload "_cache_metadata" (cacheMetadataObj now path (fileSha256 content)) ∧
      dictGet (cacheSave cfg st path content payload now).1 "_cache_metadata"
        = some (cacheMetadataObj now path (fileSha256 content)) ∧
      ∀ k, k ≠ "_cache_metadata" →
        dictGet (cacheSave cfg st path content payload now).1 k = dictGet payload k := by
  have hsave : (cacheSave cfg st path content payload now).1
      = dictSet payload "_cache_metadata" (cacheMetadataObj now path (fileSha256 content)) := by
    unfold cacheSave
    rw [henabled]
    simp only [not_true, if_neg, ite_false]
  refine ⟨hsave, ?_, ?_⟩
  · rw [hsave]
    exact dictGet_set_self payload "_cache_metadata" (cacheMetadataObj now path (fileSha256 content))
  · intro k hk
    rw [hsave]
    exact dictGet_set_other payload "_cache_metadata"
      (cacheMetadataObj now path (fileSha256 content)) k hk

/-- C10 witness: the concrete payload gains the metadata key while the
markdown key is untouched, and save returned nothing else to the
caller (the mutated dict is what the caller still holds). -/
theorem c10_witness :
    exCacheCfg.enabled = true ∧
      dictGet (cacheSave exCacheCfg [] "doc.docx" exBytes exPayload "t0").1 "_cache_metadata"
        = some (cacheMetadataObj "t0" "doc.docx" (fileSha256 exBytes)) ∧
      dictGet (cacheSave exCacheCfg [] "doc.docx" exBytes exPayload "t0").1 "markdown"
        = dictGet exPayload "markdown" := by
  have h := c10_theorem exCacheCfg [] "doc.docx" exBytes exPayload "t0" rfl
  exact ⟨rfl, h.2.1, h.2.2 "markdown" (by decide)⟩

/-- C6: with default thresholds, analyze accepts every (width, height) with
width at least 200, height at least 200, area at least 40000 and aspect
ratio within [0.2, 5.0]; and the five checks apply short-circuit in order
(width, height, area, aspect lower bound, aspect upper bound), the first
failing check determining rejection and its reason string, so taking any
single quantity below threshold while the earlier checks pass yields
rejection with the reason naming that bound. -/
theorem c6_theorem (w h : Nat) :
    ((200 ≤ w ∧ 200 ≤ h ∧ 40000 ≤ w * h ∧
        1 / 5 ≤ (w : ℚ) / (h : ℚ) ∧ (w : ℚ) / (h : ℚ) ≤ 5) →
      (analyze defaultFilterCfg w h).isRelevant = true) ∧
    (w < 200 →
      (analyze defaultFilterCfg w h).isRelevant = false ∧
        (analyze defaultFilterCfg w h).reason = widthReason defaultFilterCfg w) ∧
    (200 ≤ w → h < 200 →
      (analyze defaultFilterCfg w h).isRelevant = false ∧
        (analyze defaultFilterCfg w h).reason = heightReason defaultFilterCfg h) ∧
    (200 ≤ w → 200 ≤ h → w * h < 40000 →
      (analyze defaultFilterCfg w h).isRelevant = false ∧
        (analyze defaultFilterCfg w h).reason = areaReason defaultFilterCfg (w * h)) ∧
    (200 ≤ w → 200 ≤ h → 40000 ≤ w * h → (w : ℚ) / (h : ℚ) < 1 / 5 →
      (analyze defaultFilterCfg w h).isRelevant = false ∧
        (analyze defaultFilterCfg w h).reason
          = lowAspectReason defaultFilterCfg ((w : ℚ) / (h : ℚ))) ∧
    (200 ≤ w → 200 ≤ h → 40000 ≤ w * h → 5 < (w : ℚ) / (h : ℚ) →
      (analyze defaultFilterCfg w h).isRelevant = false ∧
        (analyze defaultFilterCfg w h).reason
          = highAspectReason defaultFilterCfg ((w : ℚ) / (h : ℚ))) := by
  refine ⟨?_, ?_, ?_, ?_, ?_, ?_⟩
  · rintro ⟨hw, hh, harea, hlo, hhi⟩
    simp only [analyze, defaultFilterCfg]
    split_ifs <;> first | rfl | (exfalso; linarith)
  · intro hw
    simp only [analyze, defaultFilterCfg]
    split_ifs <;> first | exact ⟨rfl, rfl⟩ | omega
  · intro hw hh
    simp only [analyze, defaultFilterCfg]
    split_ifs <;> first | exact ⟨rfl, rfl⟩ | omega
  · intro hw hh harea
    simp only [analyze, defaultFilterCfg]
    split_ifs <;> first | exact ⟨rfl, rfl⟩ | omega
  · intro hw hh harea hlow
    simp only [analyze, defaultFilterCfg]
    split_ifs <;> first | exact ⟨rfl, rfl⟩ | omega | (exfalso; linarith)
  · intro hw hh harea hhigh
    simp only [analyze, defaultFilterCfg]
    split_ifs <;> first | exact ⟨rfl, rfl⟩ | (exfalso; linarith)

/-- C6 witness: concrete accept, width, height, low-aspect and high-aspect
cases. -/
theorem c6_witness :
    (analyze defaultFilterCfg 300 300).isRelevant = true ∧
      (analyze defaultFilterCfg 100 250).reason = widthReason defaultFilterCfg 100 ∧
      (analyze defaultFilterCfg 250 150).reason = heightReason defaultFilterCfg 150 ∧
      (analyze defaultFilterCfg 200 2000).reason
        = lowAspectReason defaultFilterCfg ((200 : ℚ) / 2000) ∧
      (analyze defaultFilterCfg 2000 300).reason
        = highAspectReason defaultFilterCfg ((2000 : ℚ) / 300) :=
  ⟨(c6_theorem 300 300).1 ⟨by omega, by omega, by omega, by norm_num, by norm_num⟩,
   ((c6_theorem 100 250).2.1 (by omega)).2,
   ((c6_theorem 250 150).2.2.1 (by omega) (by omega)).2,
   ((c6_theorem 200 2000).2.2.2.2.1 (by omega) (by omega) (by omega) (by norm_num)).2,
   ((c6_theorem 2000 300).2.2.2.2.2 (by omega) (by omega) (by omega) (by norm_num)).2⟩

/-- C8 counterexample: in the concrete environment whose single sample
extracts to an empty markdown (no excerpt retained), load_references
returns an empty list, nothing is cached, and the second call for the
unchanged corpus re-extracts that sample (one extraction again), so the
work is not performed at most once. -/
theorem c8_counterexample :
    (loadReferences envNoExcerpts (loadReferences envNoExcerpts [] "mit41").state
        "mit41").extractions = 1 ∧ (1 : Nat) ≠ 0 :=
  ⟨by with_unfolding_all rfl, by decide⟩

/-- C8 (amended): when the first load_references call returns a non-empty
reference list (either from the cache or freshly extracted and therefore
cached), a second call with the unchanged corpus performs no extraction
work and returns identical excerpt content; a first call that returns
empty caches nothing and extraction is repeated. -/
theorem c8_theorem (env : RefEnv) (st : RefCache) (mitType : String)
    (hne : (loadReferences env st mitType).references ≠ []) :
    (loadReferences env (loadReferences env st mitType).state mitType).extractions = 0 ∧
      (loadReferences env (loadReferences env st mitType).state mitType).references
        = (loadReferences env st mitType).references := by
  cases hc : loadCachedRefs st (normalizeMitType mitType) (samplesHash env) with
  | some c =>
    have h1 : loadReferences env st mitType = LoadResult.mk c.references st 0 := by
      simp only [loadReferences]
      rw [hc]
    simp [h1]
  | none =>
    by_cases hs : env.samplesDirExists
    · by_cases hd : env.docxFiles.isEmpty
      · exfalso
        apply hne
        simp only [loadReferences]
        rw [hc]
        simp [hs, hd]
      · by_cases hv : env.doclingAvailable
        · by_cases hr : (extractGroups env).isEmpty
          · exfalso
            apply hne
            simp only [loadReferences]
            rw [hc]
            simp [hs, hd, hv, List.isEmpty_iff.mp hr]
          · have h1 : loadReferences env st mitType
                = LoadResult.mk (extractGroups env)
                    (alistWrite st (normalizeMitType mitType)
                      (RefCacheEntry.mk (samplesHash env) (extractGroups env)))
                    env.docxFiles.length := by
              simp only [loadReferences]
              rw [hc]
              simp [hs, hd, hv, hr]
            have h2 : loadCachedRefs
                (alistWrite st (normalizeMitType mitType)
                  (RefCacheEntry.mk (samplesHash env) (extractGroups env)))
                (normalizeMitType mitType) (samplesHash env)
                = some (RefCacheEntry.mk (samplesHash env) (extractGroups env)) := by
              unfold loadCachedRefs
              rw [alistLookup_write]
              simp
            have h3 : loadReferences env
                (alistWrite st (normalizeMitType mitType)
                  (RefCacheEntry.mk (samplesHash env) (extractGroups env))) mitType
                = LoadResult.mk (extractGroups env)
                    (alistWrite st (normalizeMitType mitType)
                      (RefCacheEntry.mk (samplesHash env) (extractGroups env))) 0 := by
              simp only [loadReferences]
              rw [h2]
            simp [h1, h3]
        · exfalso
          apply hne
          simp only [loadReferences]
          rw [hc]
          simp [hs, hd, hv]
    · exfalso
      apply hne
      simp only [loadReferences]
      rw [hc]
      simp [hs]

/-- C8 witness: the concrete environment with one retained excerpt loads a
non-empty list, and the second call is a pure cache read returning the
same content. -/
theorem c8_witness :
    (loadReferences envGoodRefs [] "mit41").references ≠ [] ∧
      (loadReferences envGoodRefs (loadReferences envGoodRefs [] "mit41").state
          "mit41").extractions = 0 ∧
      (loadReferences envGoodRefs (loadReferences envGoodRefs [] "mit41").state
          "mit41").references = (loadReferences envGoodRefs [] "mit41").references :=
  ⟨by with_unfolding_all decide,
   (c8_theorem envGoodRefs [] "mit41" (by with_unfolding_all decide)).1,
   (c8_theorem envGoodRefs [] "mit41" (by with_unfolding_all decide)).2⟩

/-- Length of a concatenation in code points. -/
theorem pyLen_append (a b : String) : pyLen (a ++ b) = pyLen a + pyLen b := by
  simp [pyLen, String.data_append]

/-- Length of a prefix slice in code points. -/
theorem pyLen_take (s : String) (n : Nat) : pyLen (pyTake s n) = min n (pyLen s) := by
  simp [pyLen, pyTake]

/-- The truncation marker is six characters. -/
theorem pyLen_truncMarker : pyLen truncMarker = 6 := rfl

/-- Invariants of the inner rendering loop: the entries grow by a block
that matches (in order, with possible truncation) a sublist of the
excerpts of the group, the excerpt count grows by the block size and stays
within max_excerpts, and total_chars stays within max_chars + 6 (the
marker length beyond an exact fit). -/
theorem renderExcerpts_spec (maxE maxC : Nat) (src : String) :
    ∀ (es : List Excerpt) (st : RState),
      ∃ Δ sub,
        (renderExcerpts maxE maxC src es st).entries = st.entries ++ Δ ∧
        List.Sublist sub es ∧
        List.Forall₂ (entryMatchesSrc src) Δ sub ∧
        (renderExcerpts maxE maxC src es st).count = st.count + Δ.length ∧
        (st.count ≤ maxE → (renderExcerpts maxE maxC src es st).count ≤ maxE) ∧
        (st.total ≤ maxC + 6 → (renderExcerpts maxE maxC src es st).total ≤ maxC + 6) := by
  intro es
  induction es with
  | nil =>
    intro st
    refine ⟨[], [], by simp [renderExcerpts], List.nil_sublist _, List.Forall₂.nil,
      by simp [renderExcerpts], fun h => by simpa [renderExcerpts] using h,
      fun h => by simpa [renderExcerpts] using h⟩
  | cons e es ih =>
    intro st
    by_cases hstop : maxE ≤ st.count ∨ maxC ≤ st.total
    · have hstep : renderExcerpts maxE maxC src (e :: es) st = st := by
        simp only [renderExcerpts]
        rw [if_pos hstop]
      refine ⟨[], [], by simp [hstep], List.nil_sublist _, List.Forall₂.nil,
        by simp [hstep], fun h => by simpa [hstep] using h, fun h => by simpa [hstep] using h⟩
    · push_neg at hstop
      obtain ⟨hcount, htotal⟩ := hstop
      by_cases hover : maxC < st.total + pyLen e.content
      · by_cases hrem : maxC - st.total < 500
        · have hstep : renderExcerpts maxE maxC src (e :: es) st = st := by
            simp only [renderExcerpts]
            rw [if_neg (by omega), if_pos hover, if_pos hrem]
          refine ⟨[], [], by simp [hstep], List.nil_sublist _, List.Forall₂.nil,
            by simp [hstep], fun h => by simpa [hstep] using h,
            fun h => by simpa [hstep] using h⟩
        · have hlen : pyLen (pyTake e.content (maxC - st.total) ++ truncMarker)
              = (maxC - st.total) + 6 := by
            rw [pyLen_append, pyLen_take, pyLen_truncMarker]
            omega
          have hstep : renderExcerpts maxE maxC src (e :: es) st
              = renderExcerpts maxE maxC src es
                  (RState.mk
                    (st.entries ++ [REntry.mk e.title src
                      (pyTake e.content (maxC - st.total) ++ truncMarker)])
                    (st.total + pyLen (pyTake e.content (maxC - st.total) ++ truncMarker))
                    (st.count + 1)) := by
            simp only [renderExcerpts]
            rw [if_neg (by omega), if_pos hover, if_neg hrem]
          obtain ⟨Δ, sub, h1, h2, h3, h4, h5, h6⟩ := ih
            (RState.mk
              (st.entries ++ [REntry.mk e.title src
                (pyTake e.content (maxC - st.total) ++ truncMarker)])
              (st.total + pyLen (pyTake e.content (maxC - st.total) ++ truncMarker))
              (st.count + 1))
          refine ⟨REntry.mk e.title src (pyTake e.content (maxC - st.total) ++ truncMarker) :: Δ,
            e :: sub, ?_, List.Sublist.cons₂ e h2, ?_, ?_, ?_, ?_⟩
          · rw [hstep, h1]
            simp
          · exact List.Forall₂.cons ⟨rfl, rfl, Or.inr ⟨maxC - st.total, rfl⟩⟩ h3
          · rw [hstep, h4]
            simp
            omega
          · intro h
            rw [hstep]
            exact h5 (by simpa using hcount)
          · intro h
            rw [hstep]
            apply h6
            show st.total + pyLen (pyTake e.content (maxC - st.total) ++ truncMarker) ≤ maxC + 6
            rw [hlen]
            omega
      · have hstep : renderExcerpts maxE maxC src (e :: es) st
            = renderExcerpts maxE maxC src es
                (RState.mk (st.entries ++ [REntry.mk e.title src e.content])
                  (st.total + pyLen e.content) (st.count + 1)) := by
          simp only [renderExcerpts]
          rw [if_neg (by omega), if_neg hover]
        obtain ⟨Δ, sub, h1, h2, h3, h4, h5, h6⟩ := ih
          (RState.mk (st.entries ++ [REntry.mk e.title src e.content])
            (st.total + pyLen e.content) (st.count + 1))
        refine ⟨REntry.mk e.title src e.content :: Δ, e :: sub, ?_,
          List.Sublist.cons₂ e h2, List.Forall₂.cons ⟨rfl, rfl, Or.inl rfl⟩ h3, ?_, ?_, ?_⟩
        · rw [hstep, h1]
          simp
        · rw [hstep, h4]
          simp
          omega
        · intro h
          rw [hstep]
          exact h5 (by simpa using hcount)
        · intro h
          rw [hstep]
          apply h6
          show st.total + pyLen e.content ≤ maxC + 6
          omega

/-- Invariants of the outer rendering loop over the groups: entries grow by
a block matching a sublist of the flattened excerpt sequence (group order,
excerpt order within each group), with the same count and budget bounds. -/
theorem renderGroups_spec (maxE maxC : Nat) :
    ∀ (gs : List RefGroup) (st : RState),
      ∃ Δ sub,
        (renderGroups maxE maxC gs st).entries = st.entries ++ Δ ∧
        List.Sublist sub (flattenRefs gs) ∧
        List.Forall₂ entryMatches Δ sub ∧
        (renderGroups maxE maxC gs st).count = st.count + Δ.length ∧
        (st.count ≤ maxE → (renderGroups maxE maxC gs st).count ≤ maxE) ∧
        (st.total ≤ maxC + 6 → (renderGroups maxE maxC gs st).total ≤ maxC + 6) := by
  intro gs
  induction gs with
  | nil =>
    intro st
    refine ⟨[], [], by simp [renderGroups], List.nil_sublist _, List.Forall₂.nil,
      by simp [renderGroups], fun h => by simpa [renderGroups] using h,
      fun h => by simpa [renderGroups] using h⟩
  | cons g gs ih =>
    intro st
    by_cases hstop : maxE ≤ st.count
    · have hstep : renderGroups maxE maxC (g :: gs) st = st := by
        simp only [renderGroups]
        rw [if_pos hstop]
      refine ⟨[], [], by simp [hstep], List.nil_sublist _, List.Forall₂.nil,
        by simp [hstep], fun h => by simpa [hstep] using h, fun h => by simpa [hstep] using h⟩
    · have hstep : renderGroups maxE maxC (g :: gs) st
          = renderGroups maxE maxC gs (renderExcerpts maxE maxC g.source g.excerpts st) := by
        simp only [renderGroups]
        rw [if_neg hstop]
      obtain ⟨Δ1, sub1, i1, i2, i3, i4, i5, i6⟩ :=
        renderExcerpts_spec maxE maxC g.source g.excerpts st
      obtain ⟨Δ2, sub2, o1, o2, o3, o4, o5, o6⟩ :=
        ih (renderExcerpts maxE maxC g.source g.excerpts st)
      have hflat : flattenRefs (g :: gs)
          = g.excerpts.map (fun e => (g.source, e)) ++ flattenRefs gs := by
        simp [flattenRefs]
      refine ⟨Δ1 ++ Δ2, sub1.map (fun e => (g.source, e)) ++ sub2, ?_, ?_, ?_, ?_, ?_, ?_⟩
      · rw [hstep, o1, i1]
        simp
      · rw [hflat]
        exact List.Sublist.append (List.Sublist.map _ i2) o2
      · refine List.rel_append ?_ o3
        exact List.forall₂_map_right_iff.mpr i3
      · rw [hstep, o4, i4]
        simp
        omega
      · intro h
        rw [hstep]
        exact o5 (i5 h)
      · intro h
        rw [hstep]
        exact o6 (i6 h)

/-- C9 counterexample: a single 600-character excerpt rendered with a
500-character budget is truncated to fit and the marker is appended beyond
the fit, so the total excerpt character count reaches 506 and exceeds the
max_chars budget, contradicting the within-budget part of the claim. -/
theorem c9_counterexample :
    (renderGroups 6 500 bigExcerptRefs (RState.mk [] 0 0)).total = 506 ∧
      ¬ ((renderGroups 6 500 bigExcerptRefs (RState.mk [] 0 0)).total ≤ 500) :=
  ⟨by with_unfolding_all rfl, by with_unfolding_all decide⟩

/-- C9 (amended): get_reference_prompt_section includes at most
max_excerpts excerpts, drawn in group order and excerpt order within each
group (the rendered entries match, in order, a sublist of the flattened
excerpt sequence, each either verbatim or truncated with the marker
appended); the total excerpt character count stays within max_chars plus
the six characters of the truncation marker, which is appended beyond the
exact fit; and the function returns the empty string when no references
are available or no excerpt was rendered. -/
theorem c9_theorem (references : List RefGroup) (maxExcerpts maxChars : Nat) :
    (references = [] → renderPromptSection references maxExcerpts maxChars = "") ∧
    ((renderGroups maxExcerpts maxChars references (RState.mk [] 0 0)).count = 0 →
      renderPromptSection references maxExcerpts maxChars = "") ∧
    (renderGroups maxExcerpts maxChars references (RState.mk [] 0 0)).count ≤ maxExcerpts ∧
    (renderGroups maxExcerpts maxChars references (RState.mk [] 0 0)).total ≤ maxChars + 6 ∧
    (renderGroups maxExcerpts maxChars references
        (RState.mk [] 0 0)).entries.length
      = (renderGroups maxExcerpts maxChars references (RState.mk [] 0 0)).count ∧
    ∃ sub, List.Sublist sub (flattenRefs references) ∧
      List.Forall₂ entryMatches
        (renderGroups maxExcerpts maxChars references (RState.mk [] 0 0)).entries sub := by
  obtain ⟨Δ, sub, h1, h2, h3, h4, h5, h6⟩ :=
    renderGroups_spec maxExcerpts maxChars references (RState.mk [] 0 0)
  refine ⟨?_, ?_, ?_, ?_, ?_, ?_⟩
  · intro h
    subst h
    simp [renderPromptSection]
  · intro h0
    by_cases he : references.isEmpty
    · simp [renderPromptSection, he]
    · simp [renderPromptSection, he, h0]
  · exact h5 (Nat.zero_le _)
  · exact h6 (Nat.zero_le _)
  · rw [h1, h4]
    simp
  · exact ⟨sub, h2, by rw [h1]; simpa using h3⟩

/-- C9 witness: the empty reference list renders the empty string, and the
concrete over-budget excerpt stays within max_chars plus the marker. -/
theorem c9_witness :
    renderPromptSection [] 6 8000 = "" ∧
      (renderGroups 6 500 bigExcerptRefs (RState.mk [] 0 0)).total ≤ 500 + 6 :=
  ⟨(c9_theorem [] 6 8000).1 rfl, (c9_theorem bigExcerptRefs 6 500).2.2.2.1⟩

end Avaliador
